import Mathlib

/-!
# Verification of the seqr state-projection layer and list-field editor

This file embeds, in Lean 4, the two components specified for this
repository:

* the **State Projection Layer** — the sixteen Redux selector functions of
  `src/unnamed/part_000`, each of the form `state => state.x` or
  `state => state.xLoading.isLoading`;
* the **List Field Editor** — the `ListFieldView` component of
  `src/ui/shared/components/panel/view-fields/ListFieldView.jsx`, in
  particular its normalization of the initial value of the named field:

  ```js
  const initialValue = initialValues[props.field]
  const defaultedInitialValues = {
    ...initialValues,
    [props.field]: (initialValue && initialValue.length) ? initialValue : [""],
  }
  ```

  (string literals shown double-quoted).

JavaScript values are modelled by the inductive type `JSVal`; property
access (`jsGet`) follows JavaScript semantics: reading a property of
`undefined` or `null` throws a `TypeError` (modelled with `Except`),
reading a missing property of an object yields `undefined`, and reading
`length` of an array or string yields its length.  Fallible computations
return `Except String`.

To make frame claims (side-effect freedom, non-mutation of arguments)
non-vacuous, a small expression language `Expr` with an operational
semantics `eval` over a mutable variable environment is also given; the
language *can* express field assignment, and the embedded program
fragments are proved not to change the environment.
-/

/-- A JavaScript value: `undefined`, `null`, booleans, integers (the only
numbers the embedded code manipulates), strings, arrays, objects as
ordered association lists of own properties, and (opaque, named) function
references. -/
inductive JSVal where
  | undefined : JSVal
  | nullv : JSVal
  | bool (b : Bool) : JSVal
  | num (n : Int) : JSVal
  | str (s : String) : JSVal
  | arr (elems : List JSVal) : JSVal
  | obj (fields : List (String × JSVal)) : JSVal
  | fn (name : String) : JSVal
  deriving Inhabited

/-- JavaScript truthiness. `undefined`, `null`, `false`, `0` and `""` are
falsy; every object, array and function is truthy. -/
def JSVal.truthy : JSVal → Bool
  | .undefined => false
  | .nullv => false
  | .bool b => b
  | .num n => n != 0
  | .str s => s != ""
  | .arr _ => true
  | .obj _ => true
  | .fn _ => true

/-- Coercion of a JavaScript value to a property key (`ToPropertyKey`
followed by `ToString`), as used by computed member access `o[k]`. -/
def JSVal.toKey : JSVal → String
  | .undefined => "undefined"
  | .nullv => "null"
  | .bool b => if b then "true" else "false"
  | .num n => toString n
  | .str s => s
  | .arr _ => ""
  | .obj _ => "[object Object]"
  | .fn _ => ""

/-- JavaScript property read `v[k]`.  Throws a `TypeError` when the base
is `undefined` or `null`; on objects it is own-property lookup defaulting
to `undefined`; arrays and strings expose `length` and their indices;
other primitives have no own properties, so every read gives
`undefined`. -/
def jsGet : JSVal → String → Except String JSVal
  | .undefined, k => .error ("TypeError: Cannot read properties of undefined (reading " ++ k ++ ")")
  | .nullv, k => .error ("TypeError: Cannot read properties of null (reading " ++ k ++ ")")
  | .obj fields, k => .ok ((fields.lookup k).getD .undefined)
  | .arr elems, k =>
      if k = "length" then .ok (.num elems.length)
      else match k.toNat? with
        | some i => .ok (elems.getD i .undefined)
        | none => .ok .undefined
  | .str s, k =>
      if k = "length" then .ok (.num s.length)
      else match k.toNat? with
        | some i =>
            if h : i < s.toList.length then .ok (.str (String.mk [s.toList.get ⟨i, h⟩]))
            else .ok .undefined
        | none => .ok .undefined
  | .bool _, _ => .ok .undefined
  | .num _, _ => .ok .undefined
  | .fn _, _ => .ok .undefined

/-! ## The State Projection Layer (`src/unnamed/part_000`)

Each selector is translated directly from its JavaScript source.  A
*slice accessor* `state => state.x` is a single property read; a
*loading-flag accessor* `state => state.xLoading.isLoading` is two
chained property reads. -/

/-- `export const getProjectsIsLoading = state => state.projectsLoading.isLoading` -/
def getProjectsIsLoading (state : JSVal) : Except String JSVal :=
  match jsGet state "projectsLoading" with
  | .error msg => .error msg
  | .ok l => jsGet l "isLoading"

/-- `export const getProjectsByGuid = state => state.projectsByGuid` -/
def getProjectsByGuid (state : JSVal) : Except String JSVal :=
  jsGet state "projectsByGuid"

/-- `export const getProjectCategoriesByGuid = state => state.projectCategoriesByGuid` -/
def getProjectCategoriesByGuid (state : JSVal) : Except String JSVal :=
  jsGet state "projectCategoriesByGuid"

/-- `export const getFamiliesByGuid = state => state.familiesByGuid` -/
def getFamiliesByGuid (state : JSVal) : Except String JSVal :=
  jsGet state "familiesByGuid"

/-- `export const getIndividualsByGuid = state => state.individualsByGuid` -/
def getIndividualsByGuid (state : JSVal) : Except String JSVal :=
  jsGet state "individualsByGuid"

/-- `export const getSamplesByGuid = state => state.samplesByGuid` -/
def getSamplesByGuid (state : JSVal) : Except String JSVal :=
  jsGet state "samplesByGuid"

/-- `export const getMatchmakerSubmissions = state => state.matchmakerSubmissions` -/
def getMatchmakerSubmissions (state : JSVal) : Except String JSVal :=
  jsGet state "matchmakerSubmissions"

/-- `export const getMatchmakerMatches = state => state.matchmakerMatches` -/
def getMatchmakerMatches (state : JSVal) : Except String JSVal :=
  jsGet state "matchmakerMatches"

/-- `export const getMatchmakerMatchesLoading = state => state.matchmakerMatchesLoading.isLoading` -/
def getMatchmakerMatchesLoading (state : JSVal) : Except String JSVal :=
  match jsGet state "matchmakerMatchesLoading" with
  | .error msg => .error msg
  | .ok l => jsGet l "isLoading"

/-- `export const getGenesById = state => state.genesById` -/
def getGenesById (state : JSVal) : Except String JSVal :=
  jsGet state "genesById"

/-- `export const getGenesIsLoading = state => state.genesLoading.isLoading` -/
def getGenesIsLoading (state : JSVal) : Except String JSVal :=
  match jsGet state "genesLoading" with
  | .error msg => .error msg
  | .ok l => jsGet l "isLoading"

/-- `export const getLocusListsByGuid = state => state.locusListsByGuid` -/
def getLocusListsByGuid (state : JSVal) : Except String JSVal :=
  jsGet state "locusListsByGuid"

/-- `export const getLocusListsIsLoading = state => state.locusListsLoading.isLoading` -/
def getLocusListsIsLoading (state : JSVal) : Except String JSVal :=
  match jsGet state "locusListsLoading" with
  | .error msg => .error msg
  | .ok l => jsGet l "isLoading"

/-- `export const getLocusListIsLoading = state => state.locusListLoading.isLoading` -/
def getLocusListIsLoading (state : JSVal) : Except String JSVal :=
  match jsGet state "locusListLoading" with
  | .error msg => .error msg
  | .ok l => jsGet l "isLoading"

/-- `export const getVariantIsLoading = state => state.variantLoading.isLoading` -/
def getVariantIsLoading (state : JSVal) : Except String JSVal :=
  match jsGet state "variantLoading" with
  | .error msg => .error msg
  | .ok l => jsGet l "isLoading"

/-- `export const getUser = state => state.user` -/
def getUser (state : JSVal) : Except String JSVal :=
  jsGet state "user"

/-- The ten slice accessors, each paired with the top-level state field
it reads. -/
def sliceAccessors : List ((JSVal → Except String JSVal) × String) :=
  [(getProjectsByGuid, "projectsByGuid"),
   (getProjectCategoriesByGuid, "projectCategoriesByGuid"),
   (getFamiliesByGuid, "familiesByGuid"),
   (getIndividualsByGuid, "individualsByGuid"),
   (getSamplesByGuid, "samplesByGuid"),
   (getMatchmakerSubmissions, "matchmakerSubmissions"),
   (getMatchmakerMatches, "matchmakerMatches"),
   (getGenesById, "genesById"),
   (getLocusListsByGuid, "locusListsByGuid"),
   (getUser, "user")]

/-- The six loading-flag accessors, each paired with the top-level
loading-record field it reads `isLoading` from. -/
def loadingAccessors : List ((JSVal → Except String JSVal) × String) :=
  [(getProjectsIsLoading, "projectsLoading"),
   (getMatchmakerMatchesLoading, "matchmakerMatchesLoading"),
   (getGenesIsLoading, "genesLoading"),
   (getLocusListsIsLoading, "locusListsLoading"),
   (getLocusListIsLoading, "locusListLoading"),
   (getVariantIsLoading, "variantLoading")]

/-! ## The List Field Editor
(`src/ui/shared/components/panel/view-fields/ListFieldView.jsx`) -/

/-- `{...v, ...}`: the own enumerable properties contributed by spreading
`v` into an object literal.  Spreading `undefined`, `null` or another
non-object primitive contributes nothing; arrays and strings contribute
their indexed elements. -/
def jsSpread : JSVal → List (String × JSVal)
  | .obj fields => fields
  | .arr elems => elems.enum.map fun p => (toString p.1, p.2)
  | .str s => s.toList.enum.map fun p => (toString p.1, JSVal.str (String.mk [p.2]))
  | _ => []

/-- The effect of a trailing `[k]: v` entry in an object literal on the
properties accumulated so far: an existing key keeps its position but
takes the new value, a new key is appended. -/
def setField (fields : List (String × JSVal)) (k : String) (v : JSVal) :
    List (String × JSVal) :=
  if fields.any fun p => p.1 == k then
    fields.map fun p => if p.1 = k then (k, v) else p
  else fields ++ [(k, v)]

/-- `initialValue && initialValue.length`: JavaScript `&&` returns the
left operand when it is falsy (without touching `length`), otherwise the
value of `initialValue.length`. -/
def initialValueCond (initialValue : JSVal) : Except String JSVal :=
  if initialValue.truthy then jsGet initialValue "length" else .ok initialValue

/-- `(initialValue && initialValue.length) ? initialValue : [""]`: the
List Field Editor normalization of the named field value. -/
def normalizeInitialValue (initialValue : JSVal) : Except String JSVal :=
  match initialValueCond initialValue with
  | .error msg => .error msg
  | .ok c => .ok (if c.truthy then initialValue else JSVal.arr [JSVal.str ""])

/-- The `defaultedInitialValues` object computed by `ListFieldView`:
`const initialValue = initialValues[field]` followed by
`{...initialValues, [field]: (initialValue && initialValue.length) ? initialValue : [""]}`. -/
def defaultedInitialValues (initialValues : JSVal) (field : String) :
    Except String JSVal :=
  match jsGet initialValues field with
  | .error msg => .error msg
  | .ok initialValue =>
    match normalizeInitialValue initialValue with
    | .error msg => .error msg
    | .ok v => .ok (JSVal.obj (setField (jsSpread initialValues) field v))

/-- The result of rendering a React function component once: either the
`null` tree (a component may return `null`) or an element with a
component name and a props object. -/
inductive RenderTree where
  | nullTree : RenderTree
  | element (comp : String) (props : List (String × JSVal)) : RenderTree

/-- One shallow render of `ListFieldView`.  The props destructured away
from the rest (`addElementLabel`, `initialValues`) are explicit
arguments; `props` holds the remaining props, among them the required
`field`.  The body builds the `fields` descriptor list, the
`defaultedInitialValues` object, and returns the `BaseFieldView` element
`<BaseFieldView formFields={fields} initialValues={defaultedInitialValues} {...props} />`. -/
def ListFieldView (addElementLabel : JSVal) (initialValues : JSVal)
    (props : List (String × JSVal)) : Except String RenderTree :=
  let fieldVal := (props.lookup "field").getD .undefined
  let fields := JSVal.arr [JSVal.obj
    [("name", fieldVal),
     ("isArrayField", .bool true),
     ("addArrayElement", .obj [("label", addElementLabel)]),
     ("validate", .fn "validators.required"),
     ("component", .fn "RemovableInput")]]
  match defaultedInitialValues initialValues fieldVal.toKey with
  | .error msg => .error msg
  | .ok defaulted =>
    .ok (.element "BaseFieldView"
      (props.foldl (fun acc p => setField acc p.1 p.2)
        [("formFields", fields), ("initialValues", defaulted)]))

/-! ## A small JavaScript expression language

To state the frame claims (side-effect freedom of the accessors,
non-mutation of the `initialValues` argument) non-vacuously, the relevant
source fragments are also deep-embedded as expressions of a language that
*does* contain property assignment; the semantics threads the variable
environment, so an expression could in principle change it. -/

inductive Expr where
  /-- variable reference `x` -/
  | var (x : String) : Expr
  /-- literal value -/
  | lit (v : JSVal) : Expr
  /-- static member access `e.k` -/
  | field (e : Expr) (k : String) : Expr
  /-- computed member access `e[i]` -/
  | index (e : Expr) (i : Expr) : Expr
  /-- short-circuit conjunction `a && b` -/
  | andE (a b : Expr) : Expr
  /-- conditional `c ? t : e` -/
  | condE (c t e : Expr) : Expr
  /-- one-element array literal `[e]` (the only array-literal shape the
  embedded fragments use) -/
  | arr1 (e : Expr) : Expr
  /-- object literal with a spread and one computed entry
  `{...base, [key]: v}` -/
  | objSpread (base key v : Expr) : Expr
  /-- `const x = e; b` -/
  | letE (x : String) (e b : Expr) : Expr
  /-- property assignment `x.k = e` (present in the language so that
  purity of the embedded fragments is a statement, not a tautology) -/
  | assignF (x : String) (k : String) (e : Expr) : Expr

/-- Big-step evaluation, threading the variable environment.  Member
access uses `jsGet` (and so throws on an `undefined`/`null` base);
`&&` short-circuits; `letE` pops its binding afterwards; `assignF`
overwrites a property of the object held by a variable. -/
def eval (env : List (String × JSVal)) :
    Expr → Except String (JSVal × List (String × JSVal))
  | .var x => .ok ((env.lookup x).getD .undefined, env)
  | .lit v => .ok (v, env)
  | .field e k =>
      match eval env e with
      | .error msg => .error msg
      | .ok (v, env1) =>
        match jsGet v k with
        | .error msg => .error msg
        | .ok w => .ok (w, env1)
  | .index e i =>
      match eval env e with
      | .error msg => .error msg
      | .ok (v, env1) =>
        match eval env1 i with
        | .error msg => .error msg
        | .ok (kv, env2) =>
          match jsGet v kv.toKey with
          | .error msg => .error msg
          | .ok w => .ok (w, env2)
  | .andE a b =>
      match eval env a with
      | .error msg => .error msg
      | .ok (va, env1) => if va.truthy then eval env1 b else .ok (va, env1)
  | .condE c t e =>
      match eval env c with
      | .error msg => .error msg
      | .ok (vc, env1) => if vc.truthy then eval env1 t else eval env1 e
  | .arr1 e =>
      match eval env e with
      | .error msg => .error msg
      | .ok (v, env1) => .ok (.arr [v], env1)
  | .objSpread base key v =>
      match eval env base with
      | .error msg => .error msg
      | .ok (vb, env1) =>
        match eval env1 key with
        | .error msg => .error msg
        | .ok (vk, env2) =>
          match eval env2 v with
          | .error msg => .error msg
          | .ok (vv, env3) => .ok (.obj (setField (jsSpread vb) vk.toKey vv), env3)
  | .letE x e b =>
      match eval env e with
      | .error msg => .error msg
      | .ok (v, env1) =>
        match eval ((x, v) :: env1) b with
        | .error msg => .error msg
        | .ok (r, env2) => .ok (r, env2.tail)
  | .assignF x k e =>
      match eval env e with
      | .error msg => .error msg
      | .ok (v, env1) =>
        match env1.lookup x with
        | some (.obj fs) =>
            .ok (v, env1.map fun p => if p.1 = x then (x, JSVal.obj (setField fs k v)) else p)
        | _ => .error "TypeError: cannot set property"

/-- An expression is syntactically assignment-free. -/
def Expr.readOnly : Expr → Bool
  | .var _ => true
  | .lit _ => true
  | .field e _ => e.readOnly
  | .index e i => e.readOnly && i.readOnly
  | .andE a b => a.readOnly && b.readOnly
  | .condE c t e => c.readOnly && t.readOnly && e.readOnly
  | .arr1 e => e.readOnly
  | .objSpread b k v => b.readOnly && k.readOnly && v.readOnly
  | .letE _ e b => e.readOnly && b.readOnly
  | .assignF _ _ _ => false

/-- The sixteen selector bodies, in source order, as expressions over the
parameter `state`. -/
def accessorExprs : List Expr :=
  [.field (.field (.var "state") "projectsLoading") "isLoading",
   .field (.var "state") "projectsByGuid",
   .field (.var "state") "projectCategoriesByGuid",
   .field (.var "state") "familiesByGuid",
   .field (.var "state") "individualsByGuid",
   .field (.var "state") "samplesByGuid",
   .field (.var "state") "matchmakerSubmissions",
   .field (.var "state") "matchmakerMatches",
   .field (.field (.var "state") "matchmakerMatchesLoading") "isLoading",
   .field (.var "state") "genesById",
   .field (.field (.var "state") "genesLoading") "isLoading",
   .field (.var "state") "locusListsByGuid",
   .field (.field (.var "state") "locusListsLoading") "isLoading",
   .field (.field (.var "state") "locusListLoading") "isLoading",
   .field (.field (.var "state") "variantLoading") "isLoading",
   .field (.var "state") "user"]

/-- The normalization fragment of `ListFieldView` as an expression over
the parameters `initialValues` and `field` (standing for `props.field`):
`const initialValue = initialValues[field]` followed by the object
literal `{...initialValues, [field]: (initialValue && initialValue.length) ? initialValue : [""]}`. -/
def listFieldBodyExpr : Expr :=
  .letE "initialValue" (.index (.var "initialValues") (.var "field"))
    (.objSpread (.var "initialValues") (.var "field")
      (.condE
        (.andE (.var "initialValue") (.field (.var "initialValue") "length"))
        (.var "initialValue")
        (.arr1 (.lit (.str "")))))


/-- The value the List Field Editor ends up storing at the named field of
the defaulted mapping. -/
def normalizedValue (initialValues : JSVal) (field : String) : Except String JSVal :=
  match defaultedInitialValues initialValues field with
  | .error msg => .error msg
  | .ok d => jsGet d field

/-- A concrete, fully populated application-state object: every slice the
sixteen selectors read is present, and every loading record carries an
`isLoading` flag.  Used to instantiate theorems with hypotheses and in
counterexamples. -/
def sampleState : JSVal := .obj
  [("projectsLoading", .obj [("isLoading", .bool true)]),
   ("projectsByGuid", .obj [("P1", .str "projA")]),
   ("projectCategoriesByGuid", .obj []),
   ("familiesByGuid", .obj [("F1", .str "famA")]),
   ("individualsByGuid", .obj []),
   ("samplesByGuid", .obj []),
   ("matchmakerSubmissions", .obj []),
   ("matchmakerMatches", .obj []),
   ("matchmakerMatchesLoading", .obj [("isLoading", .bool false)]),
   ("genesById", .obj []),
   ("genesLoading", .obj [("isLoading", .bool false)]),
   ("locusListsByGuid", .obj []),
   ("locusListsLoading", .obj [("isLoading", .bool false)]),
   ("locusListLoading", .obj [("isLoading", .bool false)]),
   ("variantLoading", .obj [("isLoading", .bool false)]),
   ("user", .obj [("username", .str "seqruser")])]

/-- Whether a value is a non-empty array: the shape of normalized field
values that guarantees at least one rendered input row. -/
def JSVal.isNonemptySeq : JSVal → Bool
  | .arr elems => !elems.isEmpty
  | _ => false

/-! ## Supporting lemmas -/

/-- Evaluating an assignment-free expression leaves the variable
environment exactly as it was. -/
theorem eval_readOnly_env (e : Expr) :
    ∀ env r env', e.readOnly = true → eval env e = .ok (r, env') → env' = env := by
  induction e with
  | var x =>
    intro env r env' _ h
    simp [eval] at h
    exact h.2.symm
  | lit v =>
    intro env r env' _ h
    simp [eval] at h
    exact h.2.symm
  | field e k ih =>
    intro env r env' hro h
    simp only [eval] at h
    split at h
    · exact absurd h (by simp)
    next v env1 he =>
      split at h
      · exact absurd h (by simp)
      next w hg =>
        simp at h
        rw [← h.2]
        exact ih env v env1 hro he
  | index e i ihe ihi =>
    intro env r env' hro h
    rw [Expr.readOnly, Bool.and_eq_true] at hro
    simp only [eval] at h
    split at h
    · exact absurd h (by simp)
    next v env1 he =>
      split at h
      · exact absurd h (by simp)
      next kv env2 hi =>
        split at h
        · exact absurd h (by simp)
        next w hg =>
          simp at h
          rw [← h.2]
          rw [ihi env1 kv env2 hro.2 hi]
          exact ihe env v env1 hro.1 he
  | andE a b iha ihb =>
    intro env r env' hro h
    rw [Expr.readOnly, Bool.and_eq_true] at hro
    simp only [eval] at h
    split at h
    · exact absurd h (by simp)
    next va env1 ha =>
      split at h
      next ht =>
        rw [ihb env1 r env' hro.2 h]
        exact iha env va env1 hro.1 ha
      next ht =>
        simp at h
        rw [← h.2]
        exact iha env va env1 hro.1 ha
  | condE c t e ihc iht ihe =>
    intro env r env' hro h
    rw [Expr.readOnly, Bool.and_eq_true, Bool.and_eq_true] at hro
    simp only [eval] at h
    split at h
    · exact absurd h (by simp)
    next vc env1 hc =>
      split at h
      next ht =>
        rw [iht env1 r env' hro.1.2 h]
        exact ihc env vc env1 hro.1.1 hc
      next ht =>
        rw [ihe env1 r env' hro.2 h]
        exact ihc env vc env1 hro.1.1 hc
  | arr1 e ih =>
    intro env r env' hro h
    simp only [eval] at h
    split at h
    · exact absurd h (by simp)
    next v env1 he =>
      simp at h
      rw [← h.2]
      exact ih env v env1 hro he
  | objSpread b k v ihb ihk ihv =>
    intro env r env' hro h
    rw [Expr.readOnly, Bool.and_eq_true, Bool.and_eq_true] at hro
    simp only [eval] at h
    split at h
    · exact absurd h (by simp)
    next vb env1 hb =>
      split at h
      · exact absurd h (by simp)
      next vk env2 hk =>
        split at h
        · exact absurd h (by simp)
        next vv env3 hv =>
          simp at h
          rw [← h.2]
          rw [ihv env2 vv env3 hro.2 hv, ihk env1 vk env2 hro.1.2 hk]
          exact ihb env vb env1 hro.1.1 hb
  | letE x e b ihe ihb =>
    intro env r env' hro h
    rw [Expr.readOnly, Bool.and_eq_true] at hro
    simp only [eval] at h
    split at h
    · exact absurd h (by simp)
    next v env1 he =>
      split at h
      · exact absurd h (by simp)
      next r2 env2 hb =>
        simp at h
        rw [← h.2]
        rw [ihb ((x, v) :: env1) r2 env2 hro.2 hb]
        simp
        exact ihe env v env1 hro.1 he
  | assignF x k e ih =>
    intro env r env' hro h
    simp [Expr.readOnly] at hro

/-- Unfolding lemma for association-list lookup on a cons cell. -/
theorem lookup_cons_eq (a pk : String) (pv : JSVal) (l : List (String × JSVal)) :
    List.lookup a ((pk, pv) :: l) = if a == pk then some pv else List.lookup a l := by
  cases h : a == pk <;> simp [List.lookup, h]

/-- Overwriting the entry for key `f` in place does not disturb lookups
of other keys. -/
theorem lookup_map_overwrite (fields : List (String × JSVal)) (f k : String) (v : JSVal)
    (hne : k ≠ f) :
    (fields.map fun p => if p.1 = f then (f, v) else p).lookup k = fields.lookup k := by
  induction fields with
  | nil => rfl
  | cons p fields ih =>
    obtain ⟨pk, pv⟩ := p
    simp only [List.map_cons]
    by_cases hpk : pk = f
    · rw [if_pos (show (pk, pv).1 = f from hpk)]
      have h1 : (k == f) = false := beq_eq_false_iff_ne.mpr hne
      have h2 : (k == pk) = false := beq_eq_false_iff_ne.mpr fun he => hne (hpk ▸ he)
      rw [lookup_cons_eq, lookup_cons_eq, h1, h2]
      simp [ih]
    · rw [if_neg (show ¬(pk, pv).1 = f from hpk)]
      rw [lookup_cons_eq, lookup_cons_eq, ih]

/-- Appending an entry for key `f` does not disturb lookups of other
keys. -/
theorem lookup_append_single (fields : List (String × JSVal)) (f k : String) (v : JSVal)
    (hne : k ≠ f) : (fields ++ [(f, v)]).lookup k = fields.lookup k := by
  induction fields with
  | nil =>
    have h1 : (k == f) = false := beq_eq_false_iff_ne.mpr hne
    simp only [List.nil_append, lookup_cons_eq, h1]
    rfl
  | cons p fields ih =>
    obtain ⟨pk, pv⟩ := p
    rw [List.cons_append, lookup_cons_eq, lookup_cons_eq, ih]

/-- The trailing `[f]: v` entry of an object literal does not disturb the
other keys of the object built so far. -/
theorem lookup_setField (fields : List (String × JSVal)) (f k : String) (v : JSVal)
    (hne : k ≠ f) : (setField fields f v).lookup k = fields.lookup k := by
  unfold setField
  split
  · exact lookup_map_overwrite fields f k v hne
  · exact lookup_append_single fields f k v hne

/-- Overwriting the entry for a key that is present makes lookup of that
key yield the new value. -/
theorem lookup_map_overwrite_self (fields : List (String × JSVal)) (f : String) (v : JSVal)
    (hmem : (fields.any fun p => p.1 == f) = true) :
    (fields.map fun p => if p.1 = f then (f, v) else p).lookup f = some v := by
  induction fields with
  | nil => cases hmem
  | cons p fields ih =>
    obtain ⟨pk, pv⟩ := p
    simp only [List.map_cons]
    by_cases hpk : pk = f
    · rw [if_pos (show (pk, pv).1 = f from hpk), lookup_cons_eq]
      simp
    · rw [if_neg (show ¬(pk, pv).1 = f from hpk), lookup_cons_eq]
      have h1 : (f == pk) = false := beq_eq_false_iff_ne.mpr fun he => hpk he.symm
      rw [h1]
      simp only [Bool.false_eq_true, if_false]
      apply ih
      rw [List.any_cons] at hmem
      have h2 : ((pk, pv).1 == f) = false := beq_eq_false_iff_ne.mpr hpk
      rw [h2, Bool.false_or] at hmem
      exact hmem

/-- Appending an entry for a key not yet present makes lookup of that key
yield the appended value. -/
theorem lookup_append_self (fields : List (String × JSVal)) (f : String) (v : JSVal)
    (hmem : (fields.any fun p => p.1 == f) = false) :
    (fields ++ [(f, v)]).lookup f = some v := by
  induction fields with
  | nil => simp [lookup_cons_eq]
  | cons p fields ih =>
    obtain ⟨pk, pv⟩ := p
    rw [List.any_cons, Bool.or_eq_false_iff] at hmem
    have h1 : (f == pk) = false := by
      have h2 := hmem.1
      rw [beq_eq_false_iff_ne] at h2 ⊢
      exact fun he => h2 he.symm
    rw [List.cons_append, lookup_cons_eq, h1]
    simp only [Bool.false_eq_true, if_false]
    exact ih hmem.2

/-- Looking up the key just written by `setField` yields the new value. -/
theorem lookup_setField_self (fields : List (String × JSVal)) (f : String) (v : JSVal) :
    (setField fields f v).lookup f = some v := by
  unfold setField
  split
  next h => exact lookup_map_overwrite_self fields f v h
  next h => exact lookup_append_self fields f v (by rwa [Bool.not_eq_true] at h)

/-- Evaluating the deep-embedded normalization fragment agrees with its
value-level translation `defaultedInitialValues`, and hands back the
two-entry parameter environment unchanged. -/
theorem eval_listFieldBody (iv : JSVal) (f : String) :
    eval [("initialValues", iv), ("field", .str f)] listFieldBodyExpr
      = match defaultedInitialValues iv f with
        | .error msg => .error msg
        | .ok d => .ok (d, [("initialValues", iv), ("field", .str f)]) := by
  cases hg : jsGet iv f with
  | error msg =>
    simp [listFieldBodyExpr, eval, List.lookup, JSVal.toKey, hg, defaultedInitialValues]
  | ok w =>
    by_cases ht : w.truthy
    · cases hl : jsGet w "length" with
      | error msg =>
        simp [listFieldBodyExpr, eval, List.lookup, JSVal.toKey, hg, ht, hl,
              defaultedInitialValues, normalizeInitialValue, initialValueCond]
      | ok c =>
        by_cases hc : c.truthy
        · simp [listFieldBodyExpr, eval, List.lookup, JSVal.toKey, hg, ht, hl, hc,
                defaultedInitialValues, normalizeInitialValue, initialValueCond]
        · simp [listFieldBodyExpr, eval, List.lookup, JSVal.toKey, hg, ht, hl, hc,
                defaultedInitialValues, normalizeInitialValue, initialValueCond]
    · simp [listFieldBodyExpr, eval, List.lookup, JSVal.toKey, hg, ht,
            defaultedInitialValues, normalizeInitialValue, initialValueCond,
            Bool.not_eq_true]

/-- The normalization of the initial value never throws: `&&`
short-circuits on falsy values, and every truthy value supports a
`length` read. -/
theorem normalizeInitialValue_total (w : JSVal) :
    ∃ u, normalizeInitialValue w = .ok u := by
  cases w with
  | undefined => exact ⟨_, rfl⟩
  | nullv => exact ⟨_, rfl⟩
  | bool b =>
    cases b with
    | false => exact ⟨_, rfl⟩
    | true => exact ⟨_, rfl⟩
  | num n =>
    unfold normalizeInitialValue initialValueCond
    by_cases h : (JSVal.num n).truthy
    · rw [if_pos h]
      exact ⟨_, rfl⟩
    · rw [if_neg h]
      exact ⟨_, rfl⟩
  | str s =>
    unfold normalizeInitialValue initialValueCond
    by_cases h : (JSVal.str s).truthy
    · rw [if_pos h]
      exact ⟨_, rfl⟩
    · rw [if_neg h]
      exact ⟨_, rfl⟩
  | arr elems => exact ⟨_, rfl⟩
  | obj fields => exact ⟨_, rfl⟩
  | fn n => exact ⟨_, rfl⟩

/-- A falsy initial value (in particular `undefined`, from a missing
field) normalizes to the one-element placeholder `[""]`. -/
theorem normalizeInitialValue_falsy (w : JSVal) (hw : w.truthy = false) :
    normalizeInitialValue w = .ok (.arr [.str ""]) := by
  unfold normalizeInitialValue initialValueCond
  rw [if_neg (by simp [hw])]
  simp [hw]

/-- The empty array normalizes to the one-element placeholder `[""]`:
its `length` is `0`, which is falsy. -/
theorem normalizeInitialValue_empty_arr :
    normalizeInitialValue (.arr []) = .ok (.arr [.str ""]) := rfl

/-- A non-empty array is kept verbatim: it is truthy and its `length` is
a non-zero number. -/
theorem normalizeInitialValue_nonempty_arr (l : List JSVal) (hl : l ≠ []) :
    normalizeInitialValue (.arr l) = .ok (.arr l) := by
  unfold normalizeInitialValue initialValueCond
  rw [if_pos (by simp [JSVal.truthy])]
  have hlen : jsGet (.arr l) "length" = .ok (.num l.length) := by
    simp [jsGet]
  rw [hlen]
  have : (JSVal.num l.length).truthy = true := by
    simp [JSVal.truthy, hl]
  simp [this]

/-- On an object-valued mapping, the defaulting computation never throws
and produces the object obtained by writing the normalized value over the
named field. -/
theorem defaultedInitialValues_obj (fs : List (String × JSVal)) (f : String) :
    ∀ u, normalizeInitialValue ((fs.lookup f).getD .undefined) = .ok u →
      defaultedInitialValues (.obj fs) f = .ok (.obj (setField fs f u)) := by
  intro u hu
  unfold defaultedInitialValues
  simp [jsGet, hu, jsSpread]

/-- Reading back the named field of the defaulted mapping yields exactly
the normalized value. -/
theorem normalizedValue_eq (fs : List (String × JSVal)) (f : String) :
    ∀ u, normalizeInitialValue ((fs.lookup f).getD .undefined) = .ok u →
      normalizedValue (.obj fs) f = .ok u := by
  intro u hu
  unfold normalizedValue
  rw [defaultedInitialValues_obj fs f u hu]
  simp [jsGet, lookup_setField_self]

/-- Normalization is idempotent: a value the normalization has produced
is returned unchanged when normalized again. -/
theorem normalizeInitialValue_idem_aux (w u : JSVal)
    (h : normalizeInitialValue w = .ok u) :
    normalizeInitialValue u = .ok u := by
  rcases hc : initialValueCond w with msg | c
  · unfold normalizeInitialValue at h
    rw [hc] at h
    exact absurd h (by simp)
  · unfold normalizeInitialValue at h
    rw [hc] at h
    simp at h
    by_cases ht : c.truthy
    · rw [if_pos ht] at h
      subst h
      unfold normalizeInitialValue
      rw [hc]
      simp [ht]
    · rw [if_neg ht] at h
      subst h
      rfl

/-! ## Claims about the State Projection Layer -/

/-- C1 (counterexample): on the state object `{}` — which is missing the
field `projectsLoading` read by `getProjectsIsLoading` — the loading-flag
accessor does not return `undefined`: it throws a `TypeError`, because
`state.projectsLoading` is `undefined` and `.isLoading` is then read from
`undefined`. -/
theorem getProjectsIsLoading_throws_on_missing_record :
    getProjectsIsLoading (.obj [])
      = .error "TypeError: Cannot read properties of undefined (reading isLoading)" := rfl

/-- C1 (amended): a state object missing the top-level field read by a
slice accessor makes that accessor return `undefined` without throwing;
a loading-flag accessor returns `undefined` without throwing only when
the missing field is the nested `isLoading` (the loading record being
present), and throws a `TypeError` when the top-level loading record
itself is the missing field. -/
theorem accessor_missing_field (fs : List (String × JSVal)) :
    (∀ p ∈ sliceAccessors, fs.lookup p.2 = none → p.1 (.obj fs) = .ok .undefined) ∧
    (∀ p ∈ loadingAccessors, ∀ gs, fs.lookup p.2 = some (.obj gs) →
      gs.lookup "isLoading" = none → p.1 (.obj fs) = .ok .undefined) ∧
    (∀ p ∈ loadingAccessors, fs.lookup p.2 = none →
      p.1 (.obj fs)
        = .error "TypeError: Cannot read properties of undefined (reading isLoading)") := by
  refine ⟨?_, ?_, ?_⟩
  · intro p hp
    fin_cases hp <;>
      (intro h
       simp [getProjectsByGuid, getProjectCategoriesByGuid, getFamiliesByGuid,
             getIndividualsByGuid, getSamplesByGuid, getMatchmakerSubmissions,
             getMatchmakerMatches, getGenesById, getLocusListsByGuid, getUser,
             jsGet, h])
  · intro p hp
    fin_cases hp <;>
      (intro gs h1 h2
       simp [getProjectsIsLoading, getMatchmakerMatchesLoading, getGenesIsLoading,
             getLocusListsIsLoading, getLocusListIsLoading, getVariantIsLoading,
             jsGet, h1, h2])
  · intro p hp
    fin_cases hp <;>
      (intro h
       simp [getProjectsIsLoading, getMatchmakerMatchesLoading, getGenesIsLoading,
             getLocusListsIsLoading, getLocusListIsLoading, getVariantIsLoading,
             jsGet, h])

/-- Witness for the amended C1 theorem at concrete states. -/
theorem accessor_missing_field_witness :
    getProjectsByGuid (.obj []) = .ok .undefined ∧
    getProjectsIsLoading (.obj [("projectsLoading", .obj [])]) = .ok .undefined ∧
    getVariantIsLoading (.obj [])
      = .error "TypeError: Cannot read properties of undefined (reading isLoading)" :=
  ⟨(accessor_missing_field []).1 (getProjectsByGuid, "projectsByGuid")
      (by simp [sliceAccessors]) rfl,
   (accessor_missing_field [("projectsLoading", .obj [])]).2.1
      (getProjectsIsLoading, "projectsLoading") (by simp [loadingAccessors]) [] rfl rfl,
   (accessor_missing_field []).2.2 (getVariantIsLoading, "variantLoading")
      (by simp [loadingAccessors]) rfl⟩

/-- C2 (counterexample): on the fully populated `sampleState`,
`getProjectsIsLoading` returns the nested boolean
`state.projectsLoading.isLoading`, not the value of a corresponding
top-level field: the top-level `projectsLoading` slice is an object, and
there is no top-level `projectsIsLoading` field at all. -/
theorem getProjectsIsLoading_not_a_toplevel_slice :
    getProjectsIsLoading sampleState = .ok (.bool true) ∧
    jsGet sampleState "projectsLoading" ≠ .ok (.bool true) ∧
    jsGet sampleState "projectsIsLoading" ≠ .ok (.bool true) := by
  have h1 : jsGet sampleState "projectsLoading"
      = .ok (.obj [("isLoading", .bool true)]) := rfl
  have h2 : jsGet sampleState "projectsIsLoading" = .ok .undefined := rfl
  refine ⟨rfl, ?_, ?_⟩
  · rw [h1]
    simp
  · rw [h2]
    simp

/-- C2 (amended): on a well-formed state object, each of the ten slice
accessors returns exactly the value stored at its top-level field
(in the value model, the identical value); each of the six loading-flag
accessors returns exactly the nested `isLoading` value of its top-level
loading record. -/
theorem accessor_exact_slice (fs : List (String × JSVal)) :
    (∀ p ∈ sliceAccessors, ∀ v, fs.lookup p.2 = some v → p.1 (.obj fs) = .ok v) ∧
    (∀ p ∈ loadingAccessors, ∀ gs b, fs.lookup p.2 = some (.obj gs) →
      gs.lookup "isLoading" = some b → p.1 (.obj fs) = .ok b) := by
  constructor
  · intro p hp
    fin_cases hp <;>
      (intro v h
       simp [getProjectsByGuid, getProjectCategoriesByGuid, getFamiliesByGuid,
             getIndividualsByGuid, getSamplesByGuid, getMatchmakerSubmissions,
             getMatchmakerMatches, getGenesById, getLocusListsByGuid, getUser,
             jsGet, h])
  · intro p hp
    fin_cases hp <;>
      (intro gs b h1 h2
       simp [getProjectsIsLoading, getMatchmakerMatchesLoading, getGenesIsLoading,
             getLocusListsIsLoading, getLocusListIsLoading, getVariantIsLoading,
             jsGet, h1, h2])

/-- Witness for the amended C2 theorem at concrete states. -/
theorem accessor_exact_slice_witness :
    getUser (.obj [("user", .str "u")]) = .ok (.str "u") ∧
    getGenesIsLoading (.obj [("genesLoading", .obj [("isLoading", .bool false)])])
      = .ok (.bool false) :=
  ⟨(accessor_exact_slice [("user", .str "u")]).1 (getUser, "user")
      (by simp [sliceAccessors]) (.str "u") rfl,
   (accessor_exact_slice [("genesLoading", .obj [("isLoading", .bool false)])]).2
      (getGenesIsLoading, "genesLoading") (by simp [loadingAccessors])
      [("isLoading", .bool false)] (.bool false) rfl rfl⟩

/-- C7: every accessor is side-effect-free: evaluated in the semantics
that threads the (mutable) variable environment holding the state object,
each of the sixteen accessor bodies hands the environment back exactly as
it received it, for every environment; its result is a function of the
environment alone. -/
theorem accessor_no_side_effects :
    ∀ e ∈ accessorExprs, ∀ env r env',
      eval env e = .ok (r, env') → env' = env := by
  intro e he env r env' h
  refine eval_readOnly_env e env r env' ?_ h
  fin_cases he <;> rfl

/-- Witness for C7: running `getProjectsIsLoading` on `sampleState`
yields `true` and returns the one-variable environment untouched. -/
theorem accessor_no_side_effects_witness :
    eval [("state", sampleState)]
        (.field (.field (.var "state") "projectsLoading") "isLoading")
      = .ok (.bool true, [("state", sampleState)]) ∧
    ([("state", sampleState)] : List (String × JSVal)) = [("state", sampleState)] :=
  ⟨rfl,
   accessor_no_side_effects
     (.field (.field (.var "state") "projectsLoading") "isLoading")
     (by simp [accessorExprs]) [("state", sampleState)] (.bool true)
     [("state", sampleState)] rfl⟩

/-! ## Claims about the List Field Editor -/

/-- C3 (failing input): rendering `ListFieldView` without an
`initialValues` prop — declared optional by the component's own
propTypes, only `field` being required — throws: the component
unconditionally evaluates `initialValues[props.field]` on `undefined`. -/
theorem listFieldView_undefined_initialValues_throws :
    ListFieldView .undefined .undefined [("field", .str "notes")]
      = .error "TypeError: Cannot read properties of undefined (reading notes)" := rfl

/-- C4: when the named field is absent from the (object-valued) mapping,
or is present with the empty sequence as its value, the normalized value
stored for that field is the one-element sequence containing the empty
string. -/
theorem normalizedValue_default (fs : List (String × JSVal)) (f : String)
    (h : fs.lookup f = none ∨ fs.lookup f = some (.arr [])) :
    normalizedValue (.obj fs) f = .ok (.arr [.str ""]) := by
  rcases h with h | h
  · refine normalizedValue_eq fs f _ ?_
    rw [h]
    exact normalizeInitialValue_falsy .undefined rfl
  · refine normalizedValue_eq fs f _ ?_
    rw [h]
    exact normalizeInitialValue_empty_arr

/-- Witness for C4 on both shapes of input: field absent, and field
mapped to the empty sequence. -/
theorem normalizedValue_default_witness :
    normalizedValue (.obj []) "notes" = .ok (.arr [.str ""]) ∧
    normalizedValue (.obj [("notes", .arr [])]) "notes" = .ok (.arr [.str ""]) :=
  ⟨normalizedValue_default [] "notes" (Or.inl rfl),
   normalizedValue_default [("notes", .arr [])] "notes" (Or.inr rfl)⟩

/-- C5: a non-empty sequence stored at the named field is preserved
verbatim by the normalization (in the value model, the identical
sequence). -/
theorem normalizedValue_nonempty_preserved (fs : List (String × JSVal)) (f : String)
    (l : List JSVal) (hl : l ≠ []) (h : fs.lookup f = some (.arr l)) :
    normalizedValue (.obj fs) f = .ok (.arr l) := by
  refine normalizedValue_eq fs f _ ?_
  rw [h]
  exact normalizeInitialValue_nonempty_arr l hl

/-- Witness for C5 at the spec example `{ field: ["a","b"] }`. -/
theorem normalizedValue_nonempty_preserved_witness :
    normalizedValue (.obj [("notes", .arr [.str "a", .str "b"])]) "notes"
      = .ok (.arr [.str "a", .str "b"]) :=
  normalizedValue_nonempty_preserved [("notes", .arr [.str "a", .str "b"])] "notes"
    [.str "a", .str "b"] (by simp) rfl

/-- C6: whatever the initial value of the named field — absent, the
empty sequence, or any sequence of strings — the normalized value is a
non-empty sequence, so at least one input row is rendered. -/
theorem normalizedValue_nonempty (fs : List (String × JSVal)) (f : String)
    (h : fs.lookup f = none ∨
      ∃ l, fs.lookup f = some (.arr l) ∧ ∀ v ∈ l, ∃ s, v = JSVal.str s) :
    Except.map JSVal.isNonemptySeq (normalizedValue (.obj fs) f) = .ok true := by
  rcases h with h | ⟨l, hl, _⟩
  · have he := normalizedValue_eq fs f (.arr [.str ""])
      (by rw [h]; exact normalizeInitialValue_falsy .undefined rfl)
    rw [he]
    rfl
  · cases l with
    | nil =>
      have he := normalizedValue_eq fs f (.arr [.str ""])
        (by rw [hl]; exact normalizeInitialValue_empty_arr)
      rw [he]
      rfl
    | cons x xs =>
      have he := normalizedValue_eq fs f (.arr (x :: xs))
        (by rw [hl]; exact normalizeInitialValue_nonempty_arr (x :: xs) (by simp))
      rw [he]
      rfl

/-- Witness for C6 at a one-element string sequence. -/
theorem normalizedValue_nonempty_witness :
    Except.map JSVal.isNonemptySeq
        (normalizedValue (.obj [("notes", .arr [.str "x"])]) "notes") = .ok true :=
  normalizedValue_nonempty [("notes", .arr [.str "x"])] "notes"
    (Or.inr ⟨[.str "x"], rfl, by simp⟩)

/-- C8: shallow-rendering the List Field Editor with a minimally valid
fixture — a props object carrying a `field` identifier, and an
object-valued initial-values mapping — does not throw and produces a
non-null render tree: a `BaseFieldView` element. -/
theorem listFieldView_render_ok (a : JSVal) (fs : List (String × JSVal)) (f : String)
    (rest : List (String × JSVal)) :
    ∃ ps, ListFieldView a (.obj fs) (("field", JSVal.str f) :: rest)
        = .ok (.element "BaseFieldView" ps)
      ∧ RenderTree.element "BaseFieldView" ps ≠ .nullTree := by
  obtain ⟨u, hu⟩ := normalizeInitialValue_total ((fs.lookup f).getD .undefined)
  have hd := defaultedInitialValues_obj fs f u hu
  simp only [ListFieldView, lookup_cons_eq, beq_self_eq_true, if_true, Option.getD,
             JSVal.toKey, hd]
  exact ⟨_, rfl, by simp⟩

/-- C9: the normalization of the named field value is idempotent: any
value it has produced is returned unchanged when normalized again. -/
theorem normalizeInitialValue_idem (w u : JSVal)
    (h : normalizeInitialValue w = .ok u) :
    normalizeInitialValue u = .ok u :=
  normalizeInitialValue_idem_aux w u h

/-- Witness for C9: the normalization of `undefined` produces `[""]`,
and normalizing `[""]` again returns it unchanged. -/
theorem normalizeInitialValue_idem_witness :
    normalizeInitialValue (.arr [.str ""]) = .ok (.arr [.str ""]) :=
  normalizeInitialValue_idem .undefined (.arr [.str ""]) rfl

/-- C10: run in the assignment-capable semantics, the normalization
fragment hands back its two-variable environment — in particular the
`initialValues` argument — unchanged, and in the defaulted mapping it
constructs, every key other than the named field has exactly the value
it has in the input mapping. -/
theorem listFieldView_no_mutation_frame (fs rs : List (String × JSVal)) (f : String)
    (env' : List (String × JSVal))
    (h : eval [("initialValues", .obj fs), ("field", .str f)] listFieldBodyExpr
          = .ok (.obj rs, env')) :
    env' = [("initialValues", .obj fs), ("field", .str f)] ∧
    ∀ k, k ≠ f → rs.lookup k = fs.lookup k := by
  obtain ⟨u, hu⟩ := normalizeInitialValue_total ((fs.lookup f).getD .undefined)
  have hd := defaultedInitialValues_obj fs f u hu
  have hag := eval_listFieldBody (.obj fs) f
  rw [hd] at hag
  rw [h] at hag
  simp at hag
  obtain ⟨hrs, henv⟩ := hag
  subst hrs
  exact ⟨henv, fun k hk => lookup_setField fs f k u hk⟩

/-- Witness for C10: defaulting `{other: "keep"}` over the field `notes`
leaves the entry `other` exactly as it was. -/
theorem listFieldView_no_mutation_frame_witness :
    List.lookup "other"
        [("other", JSVal.str "keep"), ("notes", JSVal.arr [JSVal.str ""])]
      = List.lookup "other" [("other", JSVal.str "keep")] :=
  (listFieldView_no_mutation_frame [("other", .str "keep")]
      [("other", .str "keep"), ("notes", .arr [.str ""])] "notes"
      [("initialValues", .obj [("other", .str "keep")]), ("field", .str "notes")]
      rfl).2 "other" (by decide)

/-! ## Agreement between the two embeddings of the selectors

Every entry of `accessorExprs` has one of the two shapes below, so the
deep-embedded selector bodies compute exactly what the shallow
translations (`getUser`, `getProjectsIsLoading`, ...) compute. -/

/-- A slice-accessor body `state.k` evaluates, on the environment binding
`state` to `s`, to exactly the shallow read `jsGet s k`, and returns the
environment unchanged. -/
theorem eval_accessor_slice (s : JSVal) (k : String) :
    eval [("state", s)] (.field (.var "state") k)
      = match jsGet s k with
        | .error msg => .error msg
        | .ok v => .ok (v, [("state", s)]) := by
  cases h : jsGet s k <;> simp [eval, List.lookup, h]

/-- A loading-flag accessor body `state.k1.k2` evaluates to exactly the
chained shallow reads, and returns the environment unchanged. -/
theorem eval_accessor_chain (s : JSVal) (k1 k2 : String) :
    eval [("state", s)] (.field (.field (.var "state") k1) k2)
      = match (match jsGet s k1 with
               | .error msg => Except.error msg
               | .ok l => jsGet l k2 : Except String JSVal) with
        | .error msg => .error msg
        | .ok v => .ok (v, [("state", s)]) := by
  cases h1 : jsGet s k1 with
  | error msg => simp [eval, List.lookup, h1]
  | ok l => cases h2 : jsGet l k2 <;> simp [eval, List.lookup, h1, h2]
